import Mathlib

/-!
# Verification of the amenity-search filtering core (src/script.js)

Shallow embedding of the query/filter logic of `script.js`:
* the Query Interpreter (lines 47-61): two regex tests deriving an
  `amenityFilter` and a `locationFilter` from the lowercased query string;
* the Filter Evaluator (lines 64-84): the `Array.prototype.filter` callback;
* the render decision (lines 112-118): "no results" alert and viewport reset;
* the marker style (lines 93-104): `pointToLayer`.

JS strings are modelled as Lean `String`/`List Char`.  `toLowerCase` is
modelled for ASCII (the only characters occurring in the data and in the
keyword patterns); the regex class `\s` is modelled by its ASCII members.
Nullable JS values (`props.area`, the two filter variables) are `Option String`
together with an explicit JS-truthiness predicate (`null`/`undefined` and the
empty string are falsy).
-/

/-- JS truthiness of a nullable string: `null`/`undefined` and `""` are falsy. -/
def jsTruthy : Option String → Bool
  | none => false
  | some s => s != ""

/-- ASCII model of `String.prototype.toLowerCase` (character-wise `A`-`Z` ↦ `a`-`z`). -/
def lowerStr (s : String) : String := ⟨s.data.map Char.toLower⟩

/-- Prefix test: `startsWithL pat s` holds iff `pat` is a prefix of `s`
(chars compared with `==`). -/
def startsWithL : List Char → List Char → Bool
  | [], _ => true
  | _ :: _, [] => false
  | a :: as, b :: bs => a == b && startsWithL as bs

/-- Substring test: `containsL s pat` models `s.indexOf(pat) !== -1`: `pat` occurs in `s`
as a contiguous substring.  This is exactly the success condition of a
JS regex `.test` for a literal pattern. -/
def containsL : List Char → List Char → Bool
  | [], pat => pat.isEmpty
  | s@(_ :: t), pat => startsWithL pat s || containsL t pat

/-- The ASCII members of the JS regex character class `\s`. -/
def isWs (c : Char) : Bool :=
  c == ' ' || c == '\t' || c == '\n' || c == '\r' || c == '\x0b' || c == '\x0c'

/-- The characters of the literal locality token `corniche` of the regex
`/(near|at|in)\s+(corniche)/`. -/
def cornicheL : List Char := "corniche".data

/-- Pattern `\s*corniche` anchored at the head of the input: zero or more whitespace
characters, then the literal `corniche`, then anything. -/
def wsCorniche : List Char → Bool
  | [] => false
  | s@(c :: t) => startsWithL cornicheL s || (isWs c && wsCorniche t)

/-- Pattern `\s+corniche` anchored at the head of the input: at least one whitespace
character, then the literal `corniche`. -/
def wsPlusCorniche : List Char → Bool
  | [] => false
  | c :: t => isWs c && wsCorniche t

/-- One position of the search of `/(near|at|in)\s+(corniche)/`: some
alternative of `(near|at|in)` matches here, followed by `\s+corniche`. -/
def locAt (s : List Char) : Bool :=
  (startsWithL "near".data s && wsPlusCorniche (s.drop "near".data.length)) ||
  (startsWithL "at".data s && wsPlusCorniche (s.drop "at".data.length)) ||
  (startsWithL "in".data s && wsPlusCorniche (s.drop "in".data.length))

/-- Search of the whole string, `/(near|at|in)\s+(corniche)/.test s`:
the pattern matches at some position. -/
def locScan : List Char → Bool
  | [] => false
  | s@(_ :: t) => locAt s || locScan t

/-- Test `/(parks?)/.test s` (src/script.js line 51): the alternatives of the
optional `s?` spelled out, `park` or `parks` occurs as a substring. -/
def parkCond (s : List Char) : Bool :=
  containsL s "park".data || containsL s "parks".data

/-- Test `/(hospitals?|clinics?)/.test s` (src/script.js line 53), the optional
`s?` of each alternative spelled out. -/
def hospitalCond (s : List Char) : Bool :=
  containsL s "hospital".data || containsL s "hospitals".data ||
  containsL s "clinic".data || containsL s "clinics".data

/-- The structured filter derived from one query string (spec §3 QueryFilter). -/
structure QueryFilter where
  amenityFilter : Option String
  locationFilter : Option String
deriving DecidableEq

/-- The Query Interpreter, src/script.js lines 47-61: lowercase the query,
derive `amenityFilter` by the park test, else the hospital/clinic test,
and `locationFilter` by the `(near|at|in)\s+corniche` test. -/
def interpretQuery (query : String) : QueryFilter :=
  let lowerQuery := lowerStr query
  let amenityFilter : Option String :=
    if parkCond lowerQuery.data then some "park"
    else if hospitalCond lowerQuery.data then some "hospital"
    else none
  let locationFilter : Option String :=
    if locScan lowerQuery.data then some "corniche" else none
  ⟨amenityFilter, locationFilter⟩

/-- One point of interest (spec §3 Feature): the `properties` of one GeoJSON
feature.  The geometric position (floating-point WGS84 coordinates) is not
modelled: no claim depends on coordinate values. -/
structure Feature where
  name : String
  amenity_type : String
  area : Option String
deriving DecidableEq

/-- The loaded GeoJSON object: an ordered sequence of features. -/
structure FeatureCollection where
  features : List Feature
deriving DecidableEq

/-- The predicate of the `filter` callback, src/script.js lines 64-84:
start from `match = true`; if `amenityFilter` is truthy and `amenity_type`
differs, fail; if still matching and `locationFilter` is truthy, fail unless
`area` is truthy and its lowercasing contains `locationFilter`. -/
def featureMatches (amenityFilter locationFilter : Option String) (f : Feature) : Bool :=
  let m1 : Bool := !(jsTruthy amenityFilter && f.amenity_type != amenityFilter.getD "")
  if m1 && jsTruthy locationFilter then
    jsTruthy f.area &&
      containsL (lowerStr (f.area.getD "")).data (locationFilter.getD "").data
  else m1

/-- The Filter Evaluator, src/script.js line 64:
`allAmenitiesData.features.filter(...)`. -/
def filterFeatures (data : FeatureCollection) (qf : QueryFilter) : List Feature :=
  data.features.filter (featureMatches qf.amenityFilter qf.locationFilter)

/-- The matching invariant in the words of spec §3 / claim C1: the feature
matches iff (amenityFilter absent OR `amenity_type` equals it) AND
(locationFilter absent OR the feature's `area`, compared case-insensitively,
contains it as a substring; an absent `area` contains nothing). -/
def specMatches (qf : QueryFilter) (f : Feature) : Bool :=
  (match qf.amenityFilter with
   | none => true
   | some a => f.amenity_type == a) &&
  (match qf.locationFilter with
   | none => true
   | some l =>
     match f.area with
     | none => false
     | some ar => containsL (lowerStr ar).data (lowerStr l).data)

/-- Constant `ABU_DHABI_CENTER = [24.47, 54.37]` (src/script.js line 3),
the coordinates as exact rationals. -/
def ABU_DHABI_CENTER : ℚ × ℚ := (24.47, 54.37)

/-- Constant `INITIAL_ZOOM = 12` (src/script.js line 4). -/
def INITIAL_ZOOM : ℕ := 12

/-- The viewport framing held by the map. -/
inductive ViewState where
  | setAt (center : ℚ × ℚ) (zoom : ℕ)
  | fittedTo (features : List Feature)
deriving DecidableEq

/-- What the display step does to the viewport. -/
inductive ViewUpdate where
  | fitToBounds (features : List Feature)
  | setRawView (center : ℚ × ℚ) (zoom : ℕ)
  | unchanged
deriving DecidableEq

/-- The render decision, src/script.js lines 112-118: if any feature was
found, fit the map to the result's bounds; else if the query string is
non-empty, raise the "no results" alert and reset to the default view;
else leave the viewport alone.  First component: whether the alert fires. -/
def renderDecision (filteredFeatures : List Feature) (query : String) : Bool × ViewUpdate :=
  if filteredFeatures.length > 0 then (false, .fitToBounds filteredFeatures)
  else if query != "" then (true, .setRawView ABU_DHABI_CENTER INITIAL_ZOOM)
  else (false, .unchanged)

/-- The mutable page state: `allAmenitiesData` (null until the fetch
resolves), `currentLayer` (the displayed subset), and the viewport. -/
structure AppState where
  allAmenitiesData : Option FeatureCollection
  currentLayer : Option (List Feature)
  view : ViewState
deriving DecidableEq

/-- Apply a `ViewUpdate` to the current viewport. -/
def applyView (v : ViewState) : ViewUpdate → ViewState
  | .fitToBounds fs => .fittedTo fs
  | .setRawView c z => .setAt c z
  | .unchanged => v

/-- The function `filterAndDisplayFeatures` (src/script.js lines 39-119) as a state
transition: bail out when the data has not loaded (`if (!allAmenitiesData)
return`), otherwise interpret the query, filter, install the new layer and
viewport.  Second component: whether the "no results" alert fires. -/
def filterAndDisplayFeatures (st : AppState) (query : String) : AppState × Bool :=
  match st.allAmenitiesData with
  | none => (st, false)
  | some data =>
    let qf := interpretQuery query
    let filteredFeatures := filterFeatures data qf
    let r := renderDecision filteredFeatures query
    ({ st with currentLayer := some filteredFeatures,
               view := applyView st.view r.2 }, r.1)

/-- Options passed to `L.circleMarker` by `pointToLayer` (src/script.js lines 93-104). -/
structure MarkerStyle where
  radius : ℕ
  fillColor : String
  color : String
  weight : ℕ
  opacity : ℕ
  fillOpacity : ℚ
deriving DecidableEq

/-- The marker style of one feature (src/script.js lines 93-104): green fill
when `amenity_type === 'park'`, red otherwise, all other options constant. -/
def pointToLayer (f : Feature) : MarkerStyle :=
  { radius := 8
    fillColor := if f.amenity_type == "park" then "green" else "red"
    color := "#000"
    weight := 1
    opacity := 1
    fillOpacity := 0.8 }

/-! ## Characterizations of the string scanners -/

theorem startsWithL_iff (p s : List Char) : startsWithL p s = true ↔ ∃ t, s = p ++ t := by
  induction p generalizing s with
  | nil => simp [startsWithL]
  | cons a as ih =>
    cases s with
    | nil => simp [startsWithL]
    | cons b bs =>
      simp only [startsWithL, Bool.and_eq_true, beq_iff_eq, ih, List.cons_append,
        List.cons.injEq]
      constructor
      · rintro ⟨rfl, t, rfl⟩
        exact ⟨t, rfl, rfl⟩
      · rintro ⟨t, rfl, rfl⟩
        exact ⟨rfl, t, rfl⟩

theorem containsL_iff (s pat : List Char) :
    containsL s pat = true ↔ ∃ pre suf, s = pre ++ pat ++ suf := by
  induction s with
  | nil =>
    simp only [containsL, List.isEmpty_iff]
    constructor
    · rintro rfl
      exact ⟨[], [], rfl⟩
    · rintro ⟨pre, suf, h⟩
      have h' := h.symm
      simp only [List.append_eq_nil] at h'
      exact h'.1.2
  | cons c t ih =>
    simp only [containsL, Bool.or_eq_true, startsWithL_iff, ih]
    constructor
    · rintro (⟨u, hu⟩ | ⟨pre, suf, rfl⟩)
      · exact ⟨[], u, by simpa using hu⟩
      · exact ⟨c :: pre, suf, rfl⟩
    · rintro ⟨pre, suf, h⟩
      cases pre with
      | nil => exact Or.inl ⟨suf, by simpa using h⟩
      | cons d pre' =>
        have h' : c = d ∧ t = pre' ++ pat ++ suf := by simpa using h
        exact Or.inr ⟨pre', suf, h'.2⟩

theorem containsL_of_append (p e : List Char) {s : List Char}
    (h : containsL s (p ++ e) = true) : containsL s p = true := by
  rcases (containsL_iff s (p ++ e)).mp h with ⟨pre, suf, rfl⟩
  exact (containsL_iff _ p).mpr ⟨pre, e ++ suf, by simp⟩

theorem wsCorniche_iff (s : List Char) :
    wsCorniche s = true ↔
      ∃ w rest, s = w ++ cornicheL ++ rest ∧ ∀ c ∈ w, isWs c = true := by
  induction s with
  | nil =>
    constructor
    · intro h
      exact absurd h (by decide)
    · rintro ⟨w, rest, h, hw⟩
      exfalso
      have hl := congrArg List.length h
      have h8 : cornicheL.length = 8 := by decide
      simp only [List.length_nil, List.length_append, h8] at hl
      omega
  | cons c t ih =>
    simp only [wsCorniche, Bool.or_eq_true, Bool.and_eq_true, startsWithL_iff, ih]
    constructor
    · rintro (⟨u, hu⟩ | ⟨hc, w, rest, ht, hw⟩)
      · exact ⟨[], u, by simpa using hu, by simp⟩
      · refine ⟨c :: w, rest, by simp [ht], fun d hd => ?_⟩
        rcases List.mem_cons.mp hd with rfl | hdw
        · exact hc
        · exact hw d hdw
    · rintro ⟨w, rest, h, hw⟩
      cases w with
      | nil => exact Or.inl ⟨rest, by simpa using h⟩
      | cons d w' =>
        have h' : c = d ∧ t = w' ++ cornicheL ++ rest := by simpa using h
        obtain ⟨rfl, ht⟩ := h'
        exact Or.inr ⟨hw c (by simp), w', rest, ht, fun e he => hw e (by simp [he])⟩

theorem wsPlusCorniche_iff (s : List Char) :
    wsPlusCorniche s = true ↔
      ∃ w rest, s = w ++ cornicheL ++ rest ∧ w ≠ [] ∧ ∀ c ∈ w, isWs c = true := by
  cases s with
  | nil =>
    constructor
    · intro h
      exact absurd h (by decide)
    · rintro ⟨w, rest, h, hne, hw⟩
      cases w with
      | nil => exact absurd rfl hne
      | cons d w' => simp at h
  | cons c t =>
    simp only [wsPlusCorniche, Bool.and_eq_true, wsCorniche_iff]
    constructor
    · rintro ⟨hc, w, rest, ht, hw⟩
      refine ⟨c :: w, rest, by simp [ht], by simp, fun d hd => ?_⟩
      rcases List.mem_cons.mp hd with rfl | hdw
      · exact hc
      · exact hw d hdw
    · rintro ⟨w, rest, h, hne, hw⟩
      cases w with
      | nil => exact absurd rfl hne
      | cons d w' =>
        have h' : c = d ∧ t = w' ++ cornicheL ++ rest := by simpa using h
        obtain ⟨rfl, ht⟩ := h'
        exact ⟨hw c (by simp), w', rest, ht, fun e he => hw e (by simp [he])⟩

theorem startsDrop_iff (p s : List Char) :
    (startsWithL p s && wsPlusCorniche (s.drop p.length)) = true ↔
      ∃ w rest, s = p ++ (w ++ (cornicheL ++ rest)) ∧ w ≠ [] ∧ ∀ c ∈ w, isWs c = true := by
  simp only [Bool.and_eq_true, startsWithL_iff, wsPlusCorniche_iff]
  constructor
  · rintro ⟨⟨u, rfl⟩, w, rest, hu, hne, hw⟩
    rw [List.drop_left] at hu
    exact ⟨w, rest, by simp [hu], hne, hw⟩
  · rintro ⟨w, rest, rfl, hne, hw⟩
    refine ⟨⟨w ++ (cornicheL ++ rest), rfl⟩, ?_⟩
    rw [List.drop_left]
    exact ⟨w, rest, by simp, hne, hw⟩

theorem locAt_iff (s : List Char) :
    locAt s = true ↔
      ∃ p w rest, s = p ++ (w ++ (cornicheL ++ rest)) ∧
        (p = "near".data ∨ p = "at".data ∨ p = "in".data) ∧
        w ≠ [] ∧ ∀ c ∈ w, isWs c = true := by
  simp only [locAt, Bool.or_eq_true, startsDrop_iff]
  constructor
  · rintro ((⟨w, rest, h, hne, hw⟩ | ⟨w, rest, h, hne, hw⟩) | ⟨w, rest, h, hne, hw⟩)
    · exact ⟨"near".data, w, rest, h, Or.inl rfl, hne, hw⟩
    · exact ⟨"at".data, w, rest, h, Or.inr (Or.inl rfl), hne, hw⟩
    · exact ⟨"in".data, w, rest, h, Or.inr (Or.inr rfl), hne, hw⟩
  · rintro ⟨p, w, rest, h, (rfl | rfl | rfl), hne, hw⟩
    · exact Or.inl (Or.inl ⟨w, rest, h, hne, hw⟩)
    · exact Or.inl (Or.inr ⟨w, rest, h, hne, hw⟩)
    · exact Or.inr ⟨w, rest, h, hne, hw⟩

theorem locScan_iff (s : List Char) :
    locScan s = true ↔
      ∃ pre p w rest, s = pre ++ (p ++ (w ++ (cornicheL ++ rest))) ∧
        (p = "near".data ∨ p = "at".data ∨ p = "in".data) ∧
        w ≠ [] ∧ ∀ c ∈ w, isWs c = true := by
  induction s with
  | nil =>
    constructor
    · intro h
      exact absurd h (by decide)
    · rintro ⟨pre, p, w, rest, h, hp, hne, hw⟩
      exfalso
      have hl := congrArg List.length h
      have h8 : cornicheL.length = 8 := by decide
      simp only [List.length_nil, List.length_append, h8] at hl
      omega
  | cons c t ih =>
    simp only [locScan, Bool.or_eq_true, locAt_iff, ih]
    constructor
    · rintro (⟨p, w, rest, h, hp, hne, hw⟩ | ⟨pre, p, w, rest, h, hp, hne, hw⟩)
      · exact ⟨[], p, w, rest, by simpa using h, hp, hne, hw⟩
      · exact ⟨c :: pre, p, w, rest, by simp [h], hp, hne, hw⟩
    · rintro ⟨pre, p, w, rest, h, hp, hne, hw⟩
      cases pre with
      | nil => exact Or.inl ⟨p, w, rest, by simpa using h, hp, hne, hw⟩
      | cons d pre' =>
        have h' : c = d ∧ t = pre' ++ (p ++ (w ++ (cornicheL ++ rest))) := by simpa using h
        exact Or.inr ⟨pre', p, w, rest, h'.2, hp, hne, hw⟩

theorem parkCond_iff (s : List Char) :
    parkCond s = true ↔ containsL s "park".data = true := by
  unfold parkCond
  simp only [Bool.or_eq_true]
  constructor
  · rintro (h | h)
    · exact h
    · exact containsL_of_append "park".data ['s'] h
  · exact Or.inl

theorem hospitalCond_iff (s : List Char) :
    hospitalCond s = true ↔
      (containsL s "hospital".data = true ∨ containsL s "clinic".data = true) := by
  unfold hospitalCond
  simp only [Bool.or_eq_true]
  constructor
  · rintro (((h | h) | h) | h)
    · exact Or.inl h
    · exact Or.inl (containsL_of_append "hospital".data ['s'] h)
    · exact Or.inr h
    · exact Or.inr (containsL_of_append "clinic".data ['s'] h)
  · rintro (h | h)
    · exact Or.inl (Or.inl (Or.inl h))
    · exact Or.inl (Or.inr h)

theorem containsL_ws_false (pat : List Char) {s : List Char}
    (hs : ∀ c ∈ s, isWs c = true) (hpat : ∃ c ∈ pat, isWs c = false) :
    containsL s pat = false := by
  cases hcon : containsL s pat with
  | false => rfl
  | true =>
    exfalso
    rcases (containsL_iff _ _).mp hcon with ⟨pre, suf, rfl⟩
    rcases hpat with ⟨c, hcpat, hcf⟩
    have hws := hs c (List.mem_append_left suf (List.mem_append_right pre hcpat))
    rw [hcf] at hws
    exact Bool.noConfusion hws

theorem locScan_ws_false {s : List Char} (hs : ∀ c ∈ s, isWs c = true) :
    locScan s = false := by
  cases hcon : locScan s with
  | false => rfl
  | true =>
    exfalso
    rcases (locScan_iff _).mp hcon with ⟨pre, p, w, rest, rfl, hp, hne, hw⟩
    have hchar : ∃ c ∈ p, isWs c = false := by
      rcases hp with rfl | rfl | rfl
      · exact ⟨'n', by decide, by decide⟩
      · exact ⟨'a', by decide, by decide⟩
      · exact ⟨'i', by decide, by decide⟩
    rcases hchar with ⟨c, hcp, hcf⟩
    have hws := hs c (List.mem_append_right pre (List.mem_append_left _ hcp))
    rw [hcf] at hws
    exact Bool.noConfusion hws

theorem toLower_of_ws {d : Char} (h : isWs d = true) : d.toLower = d := by
  unfold isWs at h
  simp only [Bool.or_eq_true, beq_iff_eq] at h
  rcases h with ((((rfl | rfl) | rfl) | rfl) | rfl) | rfl
  all_goals decide

theorem lowerStr_ws {q : String} (hq : ∀ c ∈ q.data, isWs c = true) :
    ∀ c ∈ (lowerStr q).data, isWs c = true := by
  intro c hc
  simp only [lowerStr, List.mem_map] at hc
  rcases hc with ⟨d, hd, rfl⟩
  rw [toLower_of_ws (hq d hd)]
  exact hq d hd

theorem data_ne_nil {l : String} (h : l ≠ "") : l.data ≠ [] := by
  intro hd
  apply h
  cases l with
  | mk ld =>
    simp only at hd
    subst hd
    rfl

theorem containsL_nil_false {pat : List Char} (h : pat ≠ []) :
    containsL [] pat = false := by
  cases pat with
  | nil => exact absurd rfl h
  | cons a t => rfl

example : interpretQuery "Show parks" = ⟨some "park", none⟩ := by decide
example : interpretQuery "hospitals near Corniche" = ⟨some "hospital", some "corniche"⟩ := by
  decide
example : interpretQuery "parking" = ⟨some "park", none⟩ := by decide
example : interpretQuery "" = ⟨none, none⟩ := by decide
example : interpretQuery "linear corniche" = ⟨none, some "corniche"⟩ := by decide
example : interpretQuery "at  corniche" = ⟨none, some "corniche"⟩ := by decide
example : interpretQuery "atcorniche" = ⟨none, none⟩ := by decide

/-! ## Claims -/

/-- C2 counterexample: the claim says a string containing the letters `park`
only inside a longer word (e.g. `"parking"`) yields no amenity filter, but
the regex `/(parks?)/` has no word-boundary anchors, so `"parking"` sets
`amenityFilter = "park"`. -/
theorem c2_counterexample : (interpretQuery "parking").amenityFilter = some "park" := by
  decide

/-- C2 (amended): for every query string, the Query Interpreter sets
`amenityFilter = "park"` exactly when the lowercased string contains `park`
as a substring (word boundaries are NOT required), and otherwise sets
`amenityFilter = "hospital"` exactly when it contains `hospital` or `clinic`
as a substring. -/
theorem c2_substring_amenity (q : String) :
    ((interpretQuery q).amenityFilter = some "park" ↔
      ∃ pre suf, (lowerStr q).data = pre ++ "park".data ++ suf)
    ∧ ((interpretQuery q).amenityFilter = some "hospital" ↔
      ((¬ ∃ pre suf, (lowerStr q).data = pre ++ "park".data ++ suf) ∧
       ((∃ pre suf, (lowerStr q).data = pre ++ "hospital".data ++ suf) ∨
        (∃ pre suf, (lowerStr q).data = pre ++ "clinic".data ++ suf)))) := by
  simp only [← containsL_iff]
  have hpark := parkCond_iff (lowerStr q).data
  have hhosp := hospitalCond_iff (lowerStr q).data
  by_cases hp : parkCond (lowerStr q).data = true
  · have hc : containsL (lowerStr q).data "park".data = true := hpark.mp hp
    constructor
    · simp [interpretQuery, hp, hc]
    · simp [interpretQuery, hp, hc]
  · have hc : ¬ containsL (lowerStr q).data "park".data = true := fun h => hp (hpark.mpr h)
    by_cases hh : hospitalCond (lowerStr q).data = true
    · have hd := hhosp.mp hh
      constructor
      · simp [interpretQuery, hp, hc]
      · simp [interpretQuery, hp, hh, hc, hd]
    · have hd : ¬ (containsL (lowerStr q).data "hospital".data = true ∨
          containsL (lowerStr q).data "clinic".data = true) := fun h => hh (hhosp.mpr h)
      constructor
      · simp [interpretQuery, hp, hc]
      · simp [interpretQuery, hp, hh, hc, hd]

/-- C3: the two amenity checks are mutually exclusive and park-first: a query
matching both patterns yields `amenityFilter = "park"`; the filter is only
ever `"park"`, `"hospital"` or absent; a query matching neither pattern
leaves it absent. -/
theorem c3_priority_and_range (q : String) :
    (parkCond (lowerStr q).data = true → hospitalCond (lowerStr q).data = true →
      (interpretQuery q).amenityFilter = some "park")
    ∧ ((interpretQuery q).amenityFilter = some "park" ∨
       (interpretQuery q).amenityFilter = some "hospital" ∨
       (interpretQuery q).amenityFilter = none)
    ∧ (parkCond (lowerStr q).data = false → hospitalCond (lowerStr q).data = false →
      (interpretQuery q).amenityFilter = none) := by
  refine ⟨fun hp _ => by simp [interpretQuery, hp], ?_,
    fun hp hh => by simp [interpretQuery, hp, hh]⟩
  by_cases hp : parkCond (lowerStr q).data = true
  · exact Or.inl (by simp [interpretQuery, hp])
  · by_cases hh : hospitalCond (lowerStr q).data = true
    · exact Or.inr (Or.inl (by simp [interpretQuery, hp, hh]))
    · exact Or.inr (Or.inr (by simp [interpretQuery, hp, hh]))

/-- C3 witness: `"park clinic"` matches both patterns and yields `"park"`. -/
theorem c3_witness :
    parkCond (lowerStr "park clinic").data = true ∧
    hospitalCond (lowerStr "park clinic").data = true ∧
    (interpretQuery "park clinic").amenityFilter = some "park" :=
  ⟨by decide, by decide,
    (c3_priority_and_range "park clinic").1 (by decide) (by decide)⟩

/-- C4: `locationFilter = "corniche"` iff the lowercased query contains an
occurrence of `(near|at|in)` followed by (one or more) whitespace followed by
the literal `corniche`; no other locality is ever produced. -/
theorem c4_location_pattern (q : String) :
    ((interpretQuery q).locationFilter = some "corniche" ↔
      ∃ pre p w rest, (lowerStr q).data = pre ++ (p ++ (w ++ (cornicheL ++ rest))) ∧
        (p = "near".data ∨ p = "at".data ∨ p = "in".data) ∧
        w ≠ [] ∧ ∀ c ∈ w, isWs c = true)
    ∧ ((interpretQuery q).locationFilter = some "corniche" ∨
       (interpretQuery q).locationFilter = none) := by
  by_cases h : locScan (lowerStr q).data = true
  · refine ⟨⟨fun _ => (locScan_iff _).mp h, fun _ => by simp [interpretQuery, h]⟩, ?_⟩
    exact Or.inl (by simp [interpretQuery, h])
  · refine ⟨⟨fun hsome => ?_, fun hex => absurd ((locScan_iff _).mpr hex) h⟩, ?_⟩
    · exfalso
      simp [interpretQuery, h] at hsome
    · exact Or.inr (by simp [interpretQuery, h])

/-- C5: an empty, whitespace-only, or keyword-free query yields the empty
QueryFilter, and the empty QueryFilter returns the whole collection in its
original order. -/
theorem c5_empty_filter (q : String) (data : FeatureCollection)
    (h : (∀ c ∈ q.data, isWs c = true) ∨
         (containsL (lowerStr q).data "park".data = false ∧
          containsL (lowerStr q).data "hospital".data = false ∧
          containsL (lowerStr q).data "clinic".data = false ∧
          locScan (lowerStr q).data = false)) :
    interpretQuery q = ⟨none, none⟩ ∧
      filterFeatures data ⟨none, none⟩ = data.features := by
  constructor
  · have hconds : parkCond (lowerStr q).data = false ∧
        hospitalCond (lowerStr q).data = false ∧ locScan (lowerStr q).data = false := by
      rcases h with hws | ⟨h1, h2, h3, h4⟩
      · have hws' := lowerStr_ws hws
        refine ⟨?_, ?_, locScan_ws_false hws'⟩
        · have a1 := containsL_ws_false "park".data hws' (by decide)
          have a2 := containsL_ws_false "parks".data hws' (by decide)
          simp [parkCond, a1, a2]
        · have a3 := containsL_ws_false "hospital".data hws' (by decide)
          have a4 := containsL_ws_false "hospitals".data hws' (by decide)
          have a5 := containsL_ws_false "clinic".data hws' (by decide)
          have a6 := containsL_ws_false "clinics".data hws' (by decide)
          simp [hospitalCond, a3, a4, a5, a6]
      · have h1' : containsL (lowerStr q).data "parks".data = false := by
          cases hx : containsL (lowerStr q).data "parks".data with
          | false => rfl
          | true => exact absurd (containsL_of_append "park".data ['s'] hx) (by simp [h1])
        have h2' : containsL (lowerStr q).data "hospitals".data = false := by
          cases hx : containsL (lowerStr q).data "hospitals".data with
          | false => rfl
          | true => exact absurd (containsL_of_append "hospital".data ['s'] hx) (by simp [h2])
        have h3' : containsL (lowerStr q).data "clinics".data = false := by
          cases hx : containsL (lowerStr q).data "clinics".data with
          | false => rfl
          | true => exact absurd (containsL_of_append "clinic".data ['s'] hx) (by simp [h3])
        exact ⟨by simp [parkCond, h1, h1'], by simp [hospitalCond, h2, h2', h3, h3'], h4⟩
    simp [interpretQuery, hconds.1, hconds.2.1, hconds.2.2]
  · simp only [filterFeatures]
    exact List.filter_eq_self.mpr fun f _ => rfl

/-- C5 witness: a whitespace-only query over a one-feature collection. -/
theorem c5_witness :
    (∀ c ∈ ("  ".data : List Char), isWs c = true) ∧
    interpretQuery "  " = ⟨none, none⟩ ∧
    filterFeatures ⟨[⟨"A", "park", none⟩]⟩ ⟨none, none⟩ = [⟨"A", "park", none⟩] :=
  ⟨by decide, c5_empty_filter "  " ⟨[⟨"A", "park", none⟩]⟩ (Or.inl (by decide))⟩

/-- C7: the Filter Evaluator is idempotent: filtering its own output with the
same QueryFilter returns the same sequence in the same order. -/
theorem c7_filter_idempotent (data : FeatureCollection) (qf : QueryFilter) :
    filterFeatures ⟨filterFeatures data qf⟩ qf = filterFeatures data qf := by
  simp only [filterFeatures]
  rw [List.filter_filter]
  simp

/-- C6: the "no results" alert fires iff the filtered result is empty and the
query string is non-empty; when it fires the viewport is reset to the fixed
default center and zoom; an empty query never raises the alert. -/
theorem c6_no_results_notice (filteredFeatures : List Feature) (query : String) :
    ((renderDecision filteredFeatures query).1 = true ↔
      (filteredFeatures = [] ∧ query ≠ ""))
    ∧ ((renderDecision filteredFeatures query).1 = true →
        (renderDecision filteredFeatures query).2 =
          ViewUpdate.setRawView ABU_DHABI_CENTER INITIAL_ZOOM)
    ∧ (query = "" → (renderDecision filteredFeatures query).1 = false) := by
  unfold renderDecision
  rcases filteredFeatures with _ | ⟨f, fs⟩
  · by_cases hq : query = ""
    · subst hq
      simp
    · simp [hq]
  · simp

/-- C6 witness: an empty result for the non-empty query `"x"` raises the
alert and resets the viewport. -/
theorem c6_witness :
    (renderDecision [] "x").1 = true ∧
    (renderDecision [] "x").2 = ViewUpdate.setRawView ABU_DHABI_CENTER INITIAL_ZOOM :=
  ⟨((c6_no_results_notice [] "x").1).mpr ⟨rfl, by decide⟩,
   (c6_no_results_notice [] "x").2.1
     (((c6_no_results_notice [] "x").1).mpr ⟨rfl, by decide⟩)⟩

/-- C8: with a present, non-empty `locationFilter`, a feature whose `area`
is null/absent never matches and is excluded from every result. -/
theorem c8_null_area_excluded (qf : QueryFilter) (f : Feature) (l : String)
    (hqf : qf.locationFilter = some l) (hl : l ≠ "") (hf : f.area = none) :
    featureMatches qf.amenityFilter qf.locationFilter f = false ∧
      ∀ data : FeatureCollection, f ∉ filterFeatures data qf := by
  have hm : featureMatches qf.amenityFilter qf.locationFilter f = false := by
    unfold featureMatches
    rw [hqf, hf]
    have hlb : jsTruthy (some l) = true := by simp [jsTruthy, hl]
    cases hm1 : (!(jsTruthy qf.amenityFilter &&
        f.amenity_type != qf.amenityFilter.getD "")) <;>
      simp [hm1, hlb, jsTruthy, hl]
  refine ⟨hm, fun data hmem => ?_⟩
  simp only [filterFeatures] at hmem
  have := (List.mem_filter.mp hmem).2
  rw [hm] at this
  exact Bool.noConfusion this

/-- C8 witness: a park with no `area` is excluded under
`locationFilter = "corniche"`. -/
theorem c8_witness :
    featureMatches none (some "corniche") ⟨"F", "park", none⟩ = false ∧
    (⟨"F", "park", none⟩ : Feature) ∉
      filterFeatures ⟨[⟨"F", "park", none⟩]⟩ ⟨none, some "corniche"⟩ :=
  ⟨(c8_null_area_excluded ⟨none, some "corniche"⟩ ⟨"F", "park", none⟩ "corniche"
      rfl (by decide) rfl).1,
   (c8_null_area_excluded ⟨none, some "corniche"⟩ ⟨"F", "park", none⟩ "corniche"
      rfl (by decide) rfl).2 ⟨[⟨"F", "park", none⟩]⟩⟩

/-- C9: while `allAmenitiesData` is still null (the load has not completed),
a submitted query is a complete no-op: the state is unchanged and no alert
fires. -/
theorem c9_unloaded_noop (st : AppState) (query : String)
    (h : st.allAmenitiesData = none) :
    filterAndDisplayFeatures st query = (st, false) := by
  unfold filterAndDisplayFeatures
  rw [h]

/-- C9 witness: the initial (unloaded) state ignores the query `"parks"`. -/
theorem c9_witness :
    (AppState.mk none none (ViewState.setAt ABU_DHABI_CENTER INITIAL_ZOOM)).allAmenitiesData
        = none ∧
    filterAndDisplayFeatures
        (AppState.mk none none (ViewState.setAt ABU_DHABI_CENTER INITIAL_ZOOM)) "parks" =
      (AppState.mk none none (ViewState.setAt ABU_DHABI_CENTER INITIAL_ZOOM), false) :=
  ⟨rfl, c9_unloaded_noop _ "parks" rfl⟩

/-- C10: the marker style is green iff `amenity_type = "park"`; every
non-park feature gets the identical red style. -/
theorem c10_marker_style (f g : Feature) :
    ((pointToLayer f).fillColor = "green" ↔ f.amenity_type = "park")
    ∧ ((pointToLayer f).fillColor = "green" ∨ (pointToLayer f).fillColor = "red")
    ∧ (f.amenity_type ≠ "park" → g.amenity_type ≠ "park" →
        pointToLayer f = pointToLayer g) := by
  unfold pointToLayer
  by_cases hf : f.amenity_type = "park" <;> by_cases hg : g.amenity_type = "park" <;>
    simp [hf, hg]

/-- C10 witness: a hospital and any other non-park amenity share one style. -/
theorem c10_witness :
    ("hospital" : String) ≠ "park" ∧ ("school" : String) ≠ "park" ∧
    pointToLayer ⟨"A", "hospital", none⟩ = pointToLayer ⟨"B", "school", none⟩ :=
  ⟨by decide, by decide,
   (c10_marker_style ⟨"A", "hospital", none⟩ ⟨"B", "school", none⟩).2.2
     (by decide) (by decide)⟩


theorem amenPart_some (a t : String) (hane : a ≠ "") :
    (!(jsTruthy (some a) && t != Option.getD (some a) "")) = (t == a) := by
  simp [jsTruthy, bne, hane]

theorem locPart_some (l ar : String) (hlne : l ≠ "") :
    (jsTruthy (some ar) && containsL (lowerStr (Option.getD (some ar) "")).data l.data) =
      containsL (lowerStr ar).data l.data := by
  by_cases har : ar = ""
  · subst har
    have hnil : containsL (lowerStr "").data l.data = false :=
      containsL_nil_false (data_ne_nil hlne)
    simp [jsTruthy, hnil]
  · simp [jsTruthy, har]

theorem featureMatches_eq_specMatches (qf : QueryFilter) (f : Feature)
    (ha : qf.amenityFilter ≠ some "")
    (hl1 : qf.locationFilter ≠ some "")
    (hl2 : Option.map lowerStr qf.locationFilter = qf.locationFilter) :
    featureMatches qf.amenityFilter qf.locationFilter f = specMatches qf f := by
  obtain ⟨af, lf⟩ := qf
  cases af with
  | none =>
    cases lf with
    | none => rfl
    | some l =>
      have hlne : l ≠ "" := fun h => hl1 (by rw [h])
      have hll : lowerStr l = l := by simpa using hl2
      have hlb : (l != "") = true := by simp [hlne]
      simp only [featureMatches, specMatches, jsTruthy, hlb, hll, Bool.false_and,
        Bool.not_false, Bool.true_and, Bool.and_true, if_true]
      cases harea : f.area with
      | none => simp [jsTruthy]
      | some ar =>
        have := locPart_some l ar hlne
        simpa [jsTruthy] using this
  | some a =>
    have hane : a ≠ "" := fun h => ha (by rw [h])
    cases lf with
    | none =>
      simp only [featureMatches, specMatches]
      rw [amenPart_some a f.amenity_type hane]
      simp [jsTruthy]
    | some l =>
      have hlne : l ≠ "" := fun h => hl1 (by rw [h])
      have hll : lowerStr l = l := by simpa using hl2
      have hlb : (l != "") = true := by simp [hlne]
      simp only [featureMatches, specMatches]
      rw [amenPart_some a f.amenity_type hane]
      cases hat : (f.amenity_type == a) with
      | false => simp [jsTruthy, hat]
      | true =>
        simp only [jsTruthy, hat, hlb, hll, Bool.true_and, Bool.and_true, if_true]
        cases harea : f.area with
        | none => simp [jsTruthy]
        | some ar =>
          have := locPart_some l ar hlne
          simpa [jsTruthy] using this

/-- C1 counterexample: the claim quantifies over every QueryFilter, but the
code lowercases only `props.area`, not `locationFilter`; an uppercase
`locationFilter` such as `"CORNICHE"` excludes a feature whose `area`
matches it case-insensitively, while the stated invariant includes it. -/
theorem c1_counterexample :
    filterFeatures ⟨[⟨"F", "park", some "Corniche"⟩]⟩ ⟨none, some "CORNICHE"⟩ ≠
      List.filter (specMatches ⟨none, some "CORNICHE"⟩) [⟨"F", "park", some "Corniche"⟩] := by
  decide

/-- C1 (amended): for every FeatureCollection and every QueryFilter whose
present fields are non-empty strings and whose `locationFilter` is already
lowercase (which is all the Query Interpreter ever produces, and what the
data model's "lowercase substring" field means), the Filter Evaluator
returns exactly the features satisfying the §3 invariant, as the stable
subsequence of the input collection. -/
theorem c1_filter_matches_spec (data : FeatureCollection) (qf : QueryFilter)
    (ha : qf.amenityFilter ≠ some "")
    (hl1 : qf.locationFilter ≠ some "")
    (hl2 : Option.map lowerStr qf.locationFilter = qf.locationFilter) :
    filterFeatures data qf = List.filter (specMatches qf) data.features ∧
      List.Sublist (filterFeatures data qf) data.features := by
  constructor
  · unfold filterFeatures
    exact List.filter_congr fun f _ => featureMatches_eq_specMatches qf f ha hl1 hl2
  · exact List.filter_sublist _

/-- C1 witness: a concrete collection and the interpreter-produced filter
`⟨some "park", some "corniche"⟩`. -/
theorem c1_witness :
    ((⟨some "park", some "corniche"⟩ : QueryFilter).amenityFilter ≠ some "") ∧
    ((⟨some "park", some "corniche"⟩ : QueryFilter).locationFilter ≠ some "") ∧
    Option.map lowerStr (⟨some "park", some "corniche"⟩ : QueryFilter).locationFilter =
      some "corniche" ∧
    filterFeatures
        ⟨[⟨"P1", "park", some "Corniche Road"⟩, ⟨"H1", "hospital", some "Corniche"⟩,
          ⟨"P2", "park", none⟩]⟩ ⟨some "park", some "corniche"⟩ =
      List.filter (specMatches ⟨some "park", some "corniche"⟩)
        [⟨"P1", "park", some "Corniche Road"⟩, ⟨"H1", "hospital", some "Corniche"⟩,
          ⟨"P2", "park", none⟩] :=
  ⟨by decide, by decide, by decide,
   (c1_filter_matches_spec
      ⟨[⟨"P1", "park", some "Corniche Road"⟩, ⟨"H1", "hospital", some "Corniche"⟩,
        ⟨"P2", "park", none⟩]⟩ ⟨some "park", some "corniche"⟩
      (by decide) (by decide) (by decide)).1⟩
